import Mathlib

/-!
Verification of the SDML semantic core (module model, import resolution and
validation engine) against its implementation in `sdml-core/src/model`.

The data model below is a shallow embedding of the Rust types in
`modules.rs`, `annotations.rs`, `definitions/entities.rs`,
`definitions/rdf.rs` and `constraints/informal.rs`.  Stateful reporting
through the loader is embedded by returning the list of diagnostics in
emission order; the mutable receiver of the builder methods is embedded by
explicit state passing.  Parts of the repository that are referenced from
the sampled files but whose sources are not sampled (identifier validation,
the diagnostics constructors, the per-variant definition walkers) are
modelled from the specification and carry a doc comment saying so.
-/

namespace SDML

/-- File identifiers as used by the diagnostics (`FileId` in sdml-errors);
`unwrap_or_default()` on a missing id yields 0. -/
abbrev FileId := Nat

/-- A source span; `byte_range` on a span is embedded as the span itself. -/
structure Span where
  start : Nat
  stop : Nat
deriving DecidableEq, Repr

/-- Corresponds to `Identifier`: a case-sensitive name string with an
optional source span.  Equality of identifiers in the source compares the
string value only. -/
structure Identifier where
  span : Option Span
  value : String
deriving DecidableEq, Repr

/-- Corresponds to `QualifiedIdentifier`: (module, member). -/
structure QualifiedIdentifier where
  span : Option Span
  module : Identifier
  member : Identifier
deriving DecidableEq, Repr

/-- Corresponds to `IdentifierReference`, the sum of the two name forms. -/
inductive IdentifierReference where
  | ident (v : Identifier)
  | qualified (v : QualifiedIdentifier)
deriving DecidableEq, Repr

/-- URLs are embedded as their serialized string; `Url` equality in the
source is string identity of the serialized form. -/
abbrev Url := String

/-- Corresponds to `HeaderValue<T>`: a value with an optional span.  The
`PartialEq` implementation in `modules.rs` compares the value only and
ignores the span; that is the equality used by version-URI comparison. -/
structure HeaderValue (α : Type) where
  span : Option Span
  value : α
deriving DecidableEq, Repr

/-- Corresponds to `ControlledLanguageTag` (constraints/informal.rs). -/
structure ControlledLanguageTag where
  span : Option Span
  value : String
deriving DecidableEq, Repr

/-- Corresponds to `ControlledLanguageString` (constraints/informal.rs). -/
structure ControlledLanguageString where
  span : Option Span
  value : String
  language : Option ControlledLanguageTag
deriving DecidableEq, Repr

/-- Modelled from the spec: the formal-constraint sub-language is "included
only as a data-model leaf because the validation engine treats it as a black
box it recurses into, not a box it evaluates"; the black-box outcome of
recursing into a formal sentence is abstracted as a boolean.  Informal
constraints are taken from `constraints/informal.rs`. -/
inductive ConstraintBody where
  | informal (v : ControlledLanguageString)
  | formal (wellFormed : Bool)
deriving DecidableEq, Repr

/-- A constraint: a named body (informal string or formal sentence). -/
structure Constraint where
  span : Option Span
  name : Identifier
  body : ConstraintBody
deriving DecidableEq, Repr

/-- Modelled from the spec: an annotation value is a simple literal or a
type reference; no validated property inspects the value payload, since
annotation-property value conformance is a documented gap (spec section 9). -/
inductive Value where
  | simple (s : String)
  | reference (r : IdentifierReference)
deriving DecidableEq, Repr

/-- Corresponds to `AnnotationProperty` (annotations.rs): a name reference
paired with a value. -/
structure AnnProperty where
  span : Option Span
  nameReference : IdentifierReference
  value : Value
deriving DecidableEq, Repr

/-- Corresponds to the `Annotation` sum type (annotations.rs). -/
inductive Ann where
  | property (v : AnnProperty)
  | constraint (v : Constraint)
deriving DecidableEq, Repr

/-- Corresponds to `AnnotationOnlyBody` (annotations.rs): a spanned list of
annotations. -/
structure AnnOnlyBody where
  span : Option Span
  annotations : List Ann
deriving DecidableEq, Repr

/-- Corresponds to `EntityDef` (definitions/entities.rs): name and optional
body.  The body payload beyond its annotations (identity member, members,
groups) is elided: no validated claim depends on it, and per
entities.rs lines 81-83 entity completeness is exactly `body.is_some()`. -/
structure EntityDef where
  span : Option Span
  name : Identifier
  body : Option AnnOnlyBody
deriving DecidableEq, Repr

/-- Corresponds to `DatatypeDef`: name and optional annotation body. -/
structure DatatypeDef where
  span : Option Span
  name : Identifier
  body : Option AnnOnlyBody
deriving DecidableEq, Repr

/-- Corresponds to `EnumDef`: name and optional body (variants elided). -/
structure EnumDef where
  span : Option Span
  name : Identifier
  body : Option AnnOnlyBody
deriving DecidableEq, Repr

/-- Corresponds to `EventDef`: name and optional body (members elided). -/
structure EventDef where
  span : Option Span
  name : Identifier
  body : Option AnnOnlyBody
deriving DecidableEq, Repr

/-- Corresponds to `PropertyDef`: name and optional body (roles elided). -/
structure PropertyDef where
  span : Option Span
  name : Identifier
  body : Option AnnOnlyBody
deriving DecidableEq, Repr

/-- Corresponds to `RdfDef` (definitions/rdf.rs): name and a required
annotation-only body. -/
structure RdfDef where
  span : Option Span
  name : Identifier
  body : AnnOnlyBody
deriving DecidableEq, Repr

/-- Corresponds to `StructureDef`: name and optional body (members elided). -/
structure StructureDef where
  span : Option Span
  name : Identifier
  body : Option AnnOnlyBody
deriving DecidableEq, Repr

/-- Corresponds to `TypeClassDef`: name and optional body (methods elided). -/
structure TypeClassDef where
  span : Option Span
  name : Identifier
  body : Option AnnOnlyBody
deriving DecidableEq, Repr

/-- Corresponds to `UnionDef`: name and optional body (variants elided). -/
structure UnionDef where
  span : Option Span
  name : Identifier
  body : Option AnnOnlyBody
deriving DecidableEq, Repr

/-- Corresponds to the closed `Definition` sum type. -/
inductive Definition where
  | datatype (v : DatatypeDef)
  | entity (v : EntityDef)
  | enum (v : EnumDef)
  | event (v : EventDef)
  | property (v : PropertyDef)
  | rdf (v : RdfDef)
  | structure (v : StructureDef)
  | typeClass (v : TypeClassDef)
  | union (v : UnionDef)
deriving DecidableEq, Repr

/-- Corresponds to `ModuleImport` (modules.rs): imported module name plus an
optional version URI. -/
structure ModuleImport where
  span : Option Span
  name : Identifier
  version_uri : Option (HeaderValue Url)
deriving DecidableEq, Repr

/-- Corresponds to the `Import` sum type (modules.rs). -/
inductive Import where
  | module (v : ModuleImport)
  | member (v : QualifiedIdentifier)
deriving DecidableEq, Repr

/-- Corresponds to `ImportStatement` (modules.rs). -/
structure ImportStatement where
  span : Option Span
  imports : List Import
deriving DecidableEq, Repr

/-- Corresponds to `ModuleBody` (modules.rs): imports, annotations and
definitions plus the error-reporting file id and the derived library flag. -/
structure ModuleBody where
  span : Option Span
  file_id : Option FileId
  is_library : Bool
  imports : List ImportStatement
  annotations : List Ann
  definitions : List Definition
deriving DecidableEq, Repr

/-- Corresponds to `Module` (modules.rs).  The `source_file` path is
embedded as a plain string. -/
structure Module where
  source_file : Option String
  file_id : Option FileId
  span : Option Span
  name : Identifier
  base_uri : Option (HeaderValue Url)
  version_info : Option (HeaderValue String)
  version_uri : Option (HeaderValue Url)
  body : ModuleBody
deriving DecidableEq, Repr

/-- The module store (`InMemoryModuleCache` behind the `ModuleStore`
capability) is embedded as the list of registered modules; `get` looks a
module up by name. -/
abbrev Store := List Module

/-- Corresponds to `ModuleStore::get(name)`: lookup by module name. -/
def Store.get (s : Store) (name : Identifier) : Option Module :=
  s.find? (fun m => m.name.value == name.value)

/-- Corresponds to `IdentifierCaseConvention` (sdml-errors): the expected
case convention supplied by the syntactic context of an identifier. -/
inductive IdentifierCaseConvention where
  | module
  | member
  | importedMember
  | typeDefinition
  | rdfDefinition
deriving DecidableEq, Repr

/-- The diagnostics emitted by the validation walk.  Each constructor
mirrors the argument list of the corresponding constructor function in
`sdml_errors::diagnostics::functions` at its call sites in the sampled
sources; the first file id and span are the primary location. -/
inductive Diagnostic where
  | moduleVersionInfoEmpty (fileId : FileId) (span : Option Span)
  | moduleIsIncomplete (fileId : FileId) (span : Option Span) (name : String)
  | moduleVersionMismatch (fileId : FileId) (span : Option Span) (expected : Url)
      (actualFileId : FileId) (actualSpan : Option Span) (actual : Url)
  | moduleVersionNotFound (fileId : FileId) (span : Option Span) (expected : Url)
      (actualFileId : FileId) (actualSpan : Option Span) (actualName : String)
  | importedModuleNotFound (fileId : FileId) (span : Option Span) (name : String)
  | definitionNotFound (fileId : FileId) (span : Option Span) (name : String)
  | identifierNotPreferredCase (fileId : FileId) (span : Option Span) (name : String)
      (convention : IdentifierCaseConvention)
  | invalidLanguageTag (fileId : FileId) (span : Option Span) (tag : String)
  | invalidConstraintSentence (fileId : FileId) (span : Option Span) (name : String)
deriving DecidableEq, Repr

/-- Corresponds to the hard `Error` returned by construction-time failures
(`library_definition_not_allowed(..).into()` in `add_to_definitions`). -/
inductive ModelError where
  | libraryDefinitionNotAllowed (fileId : FileId) (span : Option Span) (name : String)
deriving DecidableEq, Repr

/-- The file id of a module, `file_id().copied().unwrap_or_default()`. -/
def Module.file_id_or_default (m : Module) : FileId :=
  m.file_id.getD 0

/-- Modelled from the spec: the reserved library-module naming pattern
behind `Identifier::is_library_module_name` (identifiers.rs is not among
the sampled sources).  Per the glossary, a library module is one "whose
name follows a reserved naming convention"; the reserved names are the
standard-library module names. -/
def Identifier.is_library_module_name (s : String) : Bool :=
  ["dc", "owl", "rdf", "rdfs", "sdml", "skos", "xsd"].contains s

/-- True when the character is a lower-case ASCII letter. -/
def isLowerAlpha (c : Char) : Bool :=
  ('a' ≤ c) && (c ≤ 'z')

/-- True when the character is an upper-case ASCII letter. -/
def isUpperAlpha (c : Char) : Bool :=
  ('A' ≤ c) && (c ≤ 'Z')

/-- True when the character is an ASCII letter. -/
def isAsciiAlpha (c : Char) : Bool :=
  isLowerAlpha c || isUpperAlpha c

/-- True when the character is an ASCII digit. -/
def isAsciiDigit (c : Char) : Bool :=
  ('0' ≤ c) && (c ≤ '9')

/-- Corresponds to `ControlledLanguageTag::is_valid`
(constraints/informal.rs line 229): the string matches the anchored regular
expression `[a-z]{2,3}(-[A-Z][A-Za-z]{1,9})?`. -/
def ControlledLanguageTag.is_valid (s : String) : Bool :=
  let cs := s.toList
  let primary := cs.takeWhile isLowerAlpha
  let rest := cs.drop primary.length
  (primary.length == 2 || primary.length == 3) &&
    (match rest with
     | [] => true
     | '-' :: c :: tail =>
        isUpperAlpha c && tail.all isAsciiAlpha && decide (1 ≤ tail.length)
          && decide (tail.length ≤ 9)
     | _ => false)

/-- Modelled from the spec: the case rule attached to each convention
(section 4.1: "each identifier carries an expected convention ... supplied
by its syntactic context").  Module and member names are expected to start
with a lower-case letter, type definitions with an upper-case letter; RDF
definition names follow no additional rule. -/
def IdentifierCaseConvention.conforms : IdentifierCaseConvention → String → Bool
  | .module, s =>
      (match s.toList with
       | c :: rest => isLowerAlpha c && rest.all (fun d => isLowerAlpha d || isAsciiDigit d || d == '_')
       | [] => false)
  | .member, s =>
      (match s.toList with
       | c :: rest => isLowerAlpha c && rest.all (fun d => isAsciiAlpha d || isAsciiDigit d || d == '_')
       | [] => false)
  | .importedMember, s =>
      (match s.toList with
       | c :: rest => isAsciiAlpha c && rest.all (fun d => isAsciiAlpha d || isAsciiDigit d || d == '_')
       | [] => false)
  | .typeDefinition, s =>
      (match s.toList with
       | c :: rest => isUpperAlpha c && rest.all (fun d => isAsciiAlpha d || isAsciiDigit d)
       | [] => false)
  | .rdfDefinition, s => !s.isEmpty

/-- Modelled from the spec: `Identifier::validate(top, loader, convention)`
(identifiers.rs is not among the sampled sources).  Section 4.1: a
case-convention mismatch "is reported as a warning-level diagnostic, not a
resolution failure"; with no expected convention nothing is checked. -/
def Identifier.validate (i : Identifier) (top : Module)
    (convention : Option IdentifierCaseConvention) : List Diagnostic :=
  match convention with
  | none => []
  | some conv =>
      if conv.conforms i.value then []
      else [.identifierNotPreferredCase top.file_id_or_default i.span i.value conv]

/-- Modelled from the spec: `QualifiedIdentifier::validate(top, loader)`
validates the module part against the module convention and the member part
against the imported-member convention, which accepts both type-cased and
member-cased names. -/
def QualifiedIdentifier.validate (q : QualifiedIdentifier) (top : Module) : List Diagnostic :=
  q.module.validate top (some .module) ++ q.member.validate top (some .importedMember)

/-- The display form of a qualified identifier, `module:member`. -/
def QualifiedIdentifier.display (q : QualifiedIdentifier) : String :=
  q.module.value ++ ":" ++ q.member.value

/-- Modelled from the spec: diagnostics-form constraint validation (the
newer `Constraint::validate` is not among the sampled sources).  An informal
constraint checks its controlled-language tag with
`ControlledLanguageTag::is_valid` (constraints/informal.rs); a formal
sentence is the recursion black box abstracted by its outcome. -/
def Constraint.validate (c : Constraint) (top : Module) (_cache : Store) : List Diagnostic :=
  match c.body with
  | .informal v =>
      (match v.language with
       | none => []
       | some t =>
          if ControlledLanguageTag.is_valid t.value then []
          else [.invalidLanguageTag top.file_id_or_default t.span t.value])
  | .formal wellFormed =>
      if wellFormed then []
      else [.invalidConstraintSentence top.file_id_or_default c.span c.name.value]

/-- Modelled from the spec: the boolean-form `Constraint::is_valid` called
from `Annotation::is_valid` (annotations.rs); valid exactly when the
diagnostics-form check reports nothing. -/
def Constraint.is_valid (c : Constraint) (_check_constraints : Bool) (top : Module)
    (cache : Store) : Bool :=
  (c.validate top cache).isEmpty

/-- Corresponds to `AnnotationProperty::is_valid` (annotations.rs lines
210-220): type/value conformance is a TODO, the check always succeeds and
ignores the `check_constraints` flag. -/
def AnnProperty.is_valid (_p : AnnProperty) (_check_constraints : Bool) (_top : Module)
    (_cache : Store) : Bool :=
  true

/-- Corresponds to `Annotation::is_valid` (annotations.rs lines 169-184):
properties are checked for either flag value; a constraint is checked only
when `check_constraints` is true and is otherwise assumed valid. -/
def Ann.is_valid (a : Ann) (check_constraints : Bool) (top : Module) (cache : Store) : Bool :=
  match a, check_constraints with
  | .property v, _ => v.is_valid check_constraints top cache
  | .constraint v, true => v.is_valid check_constraints top cache
  | _, _ => true

/-- Modelled from the spec: the diagnostics-form `Annotation::validate`
invoked by `ModuleBody::validate` (the newer annotations source is not
among the sampled files).  It mirrors the gate of `Annotation::is_valid`
(annotations.rs): a constraint is inspected only when `check_constraints`
is true; annotation-property validity is not enforced (documented gap,
spec section 9). -/
def Ann.validate (a : Ann) (top : Module) (cache : Store) (check_constraints : Bool) :
    List Diagnostic :=
  match a, check_constraints with
  | .property _, _ => []
  | .constraint v, true => v.validate top cache
  | _, _ => []

/-- Corresponds to `AnnotationOnlyBody` validation: validate every
contained annotation, forwarding the flag unchanged. -/
def AnnOnlyBody.validate (b : AnnOnlyBody) (top : Module) (cache : Store)
    (check_constraints : Bool) : List Diagnostic :=
  b.annotations.flatMap (fun a => a.validate top cache check_constraints)

/-- The name of a definition, `Definition::name()`. -/
def Definition.name : Definition → Identifier
  | .datatype v => v.name
  | .entity v => v.name
  | .enum v => v.name
  | .event v => v.name
  | .property v => v.name
  | .rdf v => v.name
  | .structure v => v.name
  | .typeClass v => v.name
  | .union v => v.name

/-- The source span of a definition, `Definition::source_span()`. -/
def Definition.source_span : Definition → Option Span
  | .datatype v => v.span
  | .entity v => v.span
  | .enum v => v.span
  | .event v => v.span
  | .property v => v.span
  | .rdf v => v.span
  | .structure v => v.span
  | .typeClass v => v.span
  | .union v => v.span

/-- The optional annotation body a definition validation recurses into. -/
def Definition.annotation_body : Definition → Option AnnOnlyBody
  | .datatype v => v.body
  | .entity v => v.body
  | .enum v => v.body
  | .event v => v.body
  | .property v => v.body
  | .rdf v => some v.body
  | .structure v => v.body
  | .typeClass v => v.body
  | .union v => v.body

/-- Corresponds to the test
`matches!(definition, Definition::Rdf(_) | Definition::TypeClass(_))` in
`ModuleBody::add_to_definitions` (modules.rs line 466): the library-only
definition kinds. -/
def Definition.is_library_only : Definition → Bool
  | .rdf _ => true
  | .typeClass _ => true
  | _ => false

/-- Whether a definition is incomplete.  Entity: from entities.rs lines
81-83, complete exactly when it has a body.  Rdf: from rdf.rs line 46,
never incomplete.  Datatype: never incomplete (its body is annotation-only
and optional).  The remaining variants are modelled from the spec
(section 4.3: completeness "means has a body"): incomplete exactly when
the body is absent.  The module and store arguments mirror the
`MaybeIncomplete` signature and are unused. -/
def Definition.is_incomplete (d : Definition) (_top : Module) (_cache : Store) : Bool :=
  match d with
  | .datatype _ => false
  | .entity v => v.body.isNone
  | .enum v => v.body.isNone
  | .event v => v.body.isNone
  | .property v => v.body.isNone
  | .rdf _ => false
  | .structure v => v.body.isNone
  | .typeClass v => v.body.isNone
  | .union v => v.body.isNone

/-- Modelled from the spec: `Definition::validate` dispatch (section 4.4:
"each definition validates its own name case convention, then its body,
recursively applying the same pattern").  The RDF variant is taken from
rdf.rs lines 48-60: name against the RDF-definition convention, then the
body; the other variants check the type-definition convention. -/
def Definition.validate (d : Definition) (top : Module) (cache : Store)
    (check_constraints : Bool) : List Diagnostic :=
  (match d with
   | .rdf v => v.name.validate top (some .rdfDefinition)
   | _ => d.name.validate top (some .typeDefinition)) ++
  (match d.annotation_body with
   | none => []
   | some b => b.validate top cache check_constraints)

/-- Corresponds to `Module::is_library_module` (modules.rs lines 295-297). -/
def Module.is_library_module (m : Module) : Bool :=
  Identifier.is_library_module_name m.name.value

/-- Corresponds to `Module::resolve_local` (modules.rs lines 299-301):
first definition in the body with the given name. -/
def Module.resolve_local (m : Module) (name : Identifier) : Option Definition :=
  m.body.definitions.find? (fun def_ => def_.name.value == name.value)

/-- Corresponds to `impl_maybe_incomplete_for!(ModuleBody; over
definitions)` (modules.rs line 399): the body is incomplete exactly when
some definition is. -/
def ModuleBody.is_incomplete (b : ModuleBody) (top : Module) (cache : Store) : Bool :=
  b.definitions.any (fun d => d.is_incomplete top cache)

/-- Corresponds to `Module::is_incomplete` (modules.rs lines 242-248):
library modules are never incomplete, otherwise defer to the body. -/
def Module.is_incomplete (m : Module) (cache : Store) : Bool :=
  if !m.is_library_module then m.body.is_incomplete m cache
  else false

/-- The validation of one import, the body of the per-import match inside
`ImportStatement::validate` (modules.rs lines 647-716). -/
def Import.validate (i : Import) (top : Module) (cache : Store) : List Diagnostic :=
  match i with
  | .module module_ref =>
      module_ref.name.validate top (some .module) ++
      (match cache.get module_ref.name with
       | some actual_module =>
          (match module_ref.version_uri, actual_module.version_uri with
           | none, _ => []
           | some expected, some actual =>
              if actual.value ≠ expected.value then
                [.moduleVersionMismatch top.file_id_or_default expected.span expected.value
                  actual_module.file_id_or_default actual.span actual.value]
              else []
           | some expected, none =>
              [.moduleVersionNotFound top.file_id_or_default module_ref.span expected.value
                actual_module.file_id_or_default actual_module.span actual_module.name.value])
       | none =>
          [.importedModuleNotFound top.file_id_or_default module_ref.span
            module_ref.name.value])
  | .member id_ref =>
      id_ref.validate top ++
      (match cache.get id_ref.module with
       | some actual_module =>
          if (actual_module.resolve_local id_ref.member).isNone then
            [.definitionNotFound top.file_id_or_default id_ref.span id_ref.display]
          else []
       | none =>
          [.importedModuleNotFound top.file_id_or_default id_ref.span id_ref.display])

/-- Corresponds to `ImportStatement::validate` (modules.rs lines 640-718):
validate each import in declaration order; the `check_constraints`
parameter is received but unused (`_: bool`). -/
def ImportStatement.validate (s : ImportStatement) (top : Module) (cache : Store)
    (_check_constraints : Bool) : List Diagnostic :=
  s.imports.flatMap (fun i => i.validate top cache)

/-- Corresponds to `ModuleBody::validate` (modules.rs lines 409-422): all
the import statements, then all annotations, then all definitions, each
receiving the same `check_constraints` value. -/
def ModuleBody.validate (b : ModuleBody) (top : Module) (cache : Store)
    (check_constraints : Bool) : List Diagnostic :=
  b.imports.flatMap (fun imp => imp.validate top cache check_constraints) ++
  b.annotations.flatMap (fun ann => ann.validate top cache check_constraints) ++
  b.definitions.flatMap (fun def_ => def_.validate top cache check_constraints)

/-- Corresponds to `Module::validate` (modules.rs lines 259-289): skipped
for library modules; otherwise the module name convention, the
empty-version-info warning, the body, and finally the single
module-is-incomplete diagnostic when the completeness engine says so. -/
def Module.validate (m : Module) (cache : Store) (check_constraints : Bool) :
    List Diagnostic :=
  if !m.is_library_module then
    m.name.validate m (some .module) ++
    (match m.version_info with
     | some version_info =>
        if version_info.value.isEmpty then
          [.moduleVersionInfoEmpty m.file_id_or_default version_info.span]
        else []
     | none => []) ++
    m.body.validate m cache check_constraints ++
    (if m.is_incomplete cache then
      [.moduleIsIncomplete m.file_id_or_default m.span m.name.value]
     else [])
  else []

/-- Corresponds to `ModuleBody::add_to_definitions` (modules.rs lines
461-477).  The mutable receiver is embedded by returning the new body
together with the optional hard error: on the library-restriction error the
body is returned unchanged, otherwise the definition is appended. -/
def ModuleBody.add_to_definitions (b : ModuleBody) (value : Definition) :
    ModuleBody × Option ModelError :=
  if !b.is_library && value.is_library_only then
    (b, some (.libraryDefinitionNotAllowed (b.file_id.getD 0) value.source_span
        value.name.value))
  else
    ({ b with definitions := b.definitions ++ [value] }, none)

/-- Corresponds to `ModuleBody::extend_definitions` (modules.rs lines
479-488): add each definition in turn, stopping at the first error. -/
def ModuleBody.extend_definitions (b : ModuleBody) : List Definition →
    ModuleBody × Option ModelError
  | [] => (b, none)
  | d :: rest =>
      match b.add_to_definitions d with
      | (b2, none) => b2.extend_definitions rest
      | (b2, some e) => (b2, some e)

/-- Whether a diagnostic is one of the version diagnostics
(module-version-mismatch, module-version-not-found,
module-version-info-empty). -/
def Diagnostic.is_version_diag : Diagnostic → Bool
  | .moduleVersionMismatch .. => true
  | .moduleVersionNotFound .. => true
  | .moduleVersionInfoEmpty .. => true
  | _ => false

/-- Whether a diagnostic is the module-is-incomplete diagnostic. -/
def Diagnostic.is_module_is_incomplete : Diagnostic → Bool
  | .moduleIsIncomplete .. => true
  | _ => false

/-- Whether a diagnostic is an import-resolution diagnostic
(imported-module-not-found or definition-not-found). -/
def Diagnostic.is_resolution_diag : Diagnostic → Bool
  | .importedModuleNotFound .. => true
  | .definitionNotFound .. => true
  | _ => false

/-- The primary file id of a diagnostic: the file id of its primary
location, the first file-id argument of its constructor function. -/
def Diagnostic.primary_file_id : Diagnostic → FileId
  | .moduleVersionInfoEmpty fileId _ => fileId
  | .moduleIsIncomplete fileId _ _ => fileId
  | .moduleVersionMismatch fileId _ _ _ _ _ => fileId
  | .moduleVersionNotFound fileId _ _ _ _ _ => fileId
  | .importedModuleNotFound fileId _ _ => fileId
  | .definitionNotFound fileId _ _ => fileId
  | .identifierNotPreferredCase fileId _ _ _ => fileId
  | .invalidLanguageTag fileId _ _ => fileId
  | .invalidConstraintSentence fileId _ _ => fileId

/-- The primary span of a diagnostic: the span of its primary location. -/
def Diagnostic.primary_span : Diagnostic → Option Span
  | .moduleVersionInfoEmpty _ span => span
  | .moduleIsIncomplete _ span _ => span
  | .moduleVersionMismatch _ span _ _ _ _ => span
  | .moduleVersionNotFound _ span _ _ _ _ => span
  | .importedModuleNotFound _ span _ => span
  | .definitionNotFound _ span _ => span
  | .identifierNotPreferredCase _ span _ _ => span
  | .invalidLanguageTag _ span _ => span
  | .invalidConstraintSentence _ span _ => span

/-- The spans belonging to an import value itself, inside the importing
module statement: its own span, the spans of its identifiers, and the span
of its version-URI header when present. -/
def Import.own_spans : Import → List (Option Span)
  | .module v =>
      [v.span, v.name.span] ++
        (match v.version_uri with
         | some h => [h.span]
         | none => [])
  | .member q => [q.span, q.module.span, q.member.span]

/-- Whether an annotation is a constraint annotation. -/
def Ann.is_constraint : Ann → Bool
  | .constraint _ => true
  | _ => false

/-- Whether a module body contains a constraint annotation anywhere the
validation walk reaches: among its top-level annotations or inside the
annotation body of one of its definitions. -/
def ModuleBody.has_constraints (b : ModuleBody) : Bool :=
  b.annotations.any Ann.is_constraint ||
    b.definitions.any (fun d =>
      match d.annotation_body with
      | none => false
      | some ab => ab.annotations.any Ann.is_constraint)

/-! Concrete fixtures used by the witnesses and counterexamples below. -/

/-- An identifier with no span. -/
def ident (s : String) : Identifier :=
  { span := none, value := s }

/-- An empty, non-library module body with no file id. -/
def ModuleBody.empty : ModuleBody :=
  { span := none, file_id := none, is_library := false, imports := [], annotations := [],
    definitions := [] }

/-- An entity definition named `Foo` with a (present, empty) body. -/
def fooEntity : EntityDef :=
  { span := some ⟨50, 60⟩, name := ident "Foo", body := some { span := none, annotations := [] } }

/-- A bodyless entity definition named `Gap`. -/
def gapEntity : EntityDef :=
  { span := some ⟨70, 80⟩, name := ident "Gap", body := none }

/-- A stored module `m2` with file id 7, version URI `https://x/v2` spanned
at bytes 40-44, and one definition `Foo`. -/
def mod2 : Module :=
  { source_file := none, file_id := some 7, span := some ⟨0, 100⟩,
    name := { span := some ⟨1, 3⟩, value := "m2" }, base_uri := none, version_info := none,
    version_uri := some { span := some ⟨40, 44⟩, value := "https://x/v2" },
    body := { span := none, file_id := some 7, is_library := false, imports := [],
              annotations := [], definitions := [.entity fooEntity] } }

/-- A stored module `m3` with file id 8 and no version URI. -/
def mod3 : Module :=
  { source_file := none, file_id := some 8, span := some ⟨0, 50⟩,
    name := { span := some ⟨1, 3⟩, value := "m3" }, base_uri := none, version_info := none,
    version_uri := none, body := ModuleBody.empty }

/-- A stored module whose name `BadMod` violates the module case
convention, with file id 9 and one definition `Foo`. -/
def badMod : Module :=
  { source_file := none, file_id := some 9, span := some ⟨0, 60⟩,
    name := { span := some ⟨1, 7⟩, value := "BadMod" }, base_uri := none,
    version_info := none, version_uri := none,
    body := { span := none, file_id := some 9, is_library := false, imports := [],
              annotations := [], definitions := [.entity fooEntity] } }

/-- The store holding `m2`, `m3` and `BadMod`. -/
def store1 : Store :=
  [mod2, mod3, badMod]

/-- The importing module `m1` with file id 1 and an empty body. -/
def mod1 : Module :=
  { source_file := none, file_id := some 1, span := some ⟨0, 200⟩,
    name := { span := some ⟨1, 3⟩, value := "m1" }, base_uri := none, version_info := none,
    version_uri := none, body := ModuleBody.empty }

/-- A module import of `m2` expecting version URI `https://x/v1` spanned at
bytes 5-9. -/
def importOfM2v1 : ModuleImport :=
  { span := some ⟨3, 12⟩, name := { span := some ⟨3, 5⟩, value := "m2" },
    version_uri := some { span := some ⟨5, 9⟩, value := "https://x/v1" } }

/-- A member import of `m2:Foo`. -/
def importOfM2Foo : QualifiedIdentifier :=
  { span := some ⟨14, 20⟩, module := { span := some ⟨14, 16⟩, value := "m2" },
    member := { span := some ⟨17, 20⟩, value := "Foo" } }

/-- A member import of `m2:Bar` (no such definition in `m2`). -/
def importOfM2Bar : QualifiedIdentifier :=
  { span := some ⟨22, 28⟩, module := { span := some ⟨22, 24⟩, value := "m2" },
    member := { span := some ⟨25, 28⟩, value := "Bar" } }

/-- A member import of `BadMod:Foo`, which resolves but whose module name
violates the module case convention. -/
def importOfBadModFoo : QualifiedIdentifier :=
  { span := some ⟨30, 40⟩, module := { span := some ⟨30, 36⟩, value := "BadMod" },
    member := { span := some ⟨37, 40⟩, value := "Foo" } }

/-- One step of a validation session: validation is called with a shared
reference to the module and the store and only appends its diagnostics to
the reporter log. -/
def run_validate (log : List Diagnostic) (m : Module) (cache : Store)
    (check_constraints : Bool) : List Diagnostic :=
  log ++ m.validate cache check_constraints

/-- An RDF definition used as a library-only definition fixture. -/
def rdfJunkDef : RdfDef :=
  { span := some ⟨90, 95⟩, name := ident "thing", body := { span := none, annotations := [] } }

/-- An import statement holding the single module import of `m2`. -/
def stmtM2 : ImportStatement :=
  { span := some ⟨2, 13⟩, imports := [.module importOfM2v1] }

/-- A non-library module `inc` whose only definition is a bodyless
entity. -/
def modIncomplete : Module :=
  { source_file := none, file_id := some 3, span := some ⟨0, 88⟩,
    name := { span := some ⟨1, 4⟩, value := "inc" }, base_uri := none, version_info := none,
    version_uri := none,
    body := { span := none, file_id := some 3, is_library := false, imports := [],
              annotations := [], definitions := [.entity gapEntity] } }

/-- An informal constraint carrying an ill-formed controlled-language
tag. -/
def badTagConstraint : Constraint :=
  { span := some ⟨60, 66⟩, name := ident "c1",
    body := .informal { span := none, value := "x",
                        language := some { span := some ⟨61, 65⟩, value := "Zz" } } }

/-- A module named `sdml` (a reserved library name) whose body holds a
bodyless entity and an import of a module missing from every store. -/
def sdmlJunk : Module :=
  { source_file := none, file_id := some 4, span := some ⟨0, 99⟩,
    name := { span := some ⟨1, 5⟩, value := "sdml" }, base_uri := none,
    version_info := some { span := some ⟨6, 6⟩, value := "" }, version_uri := none,
    body := { span := none, file_id := some 4, is_library := true,
              imports := [{ span := none,
                            imports := [.module { span := none, name := ident "nowhere",
                                                  version_uri := none }] }],
              annotations := [], definitions := [.entity gapEntity] } }

/-! Helper lemmas shared by the claim proofs. -/

/-- Identifier validation emits nothing or exactly one case diagnostic on
the identifier itself. -/
theorem identifier_validate_cases (i : Identifier) (top : Module)
    (conv : Option IdentifierCaseConvention) :
    i.validate top conv = [] ∨
      ∃ c, conv = some c ∧
        i.validate top conv =
          [.identifierNotPreferredCase top.file_id_or_default i.span i.value c] := by
  unfold Identifier.validate
  cases conv with
  | none => exact Or.inl rfl
  | some c =>
      by_cases h : c.conforms i.value
      · exact Or.inl (by simp [h])
      · exact Or.inr ⟨c, rfl, by simp [h]⟩

/-- Any predicate false on case diagnostics filters identifier-validation
output to nothing. -/
theorem identifier_validate_filter (i : Identifier) (top : Module)
    (conv : Option IdentifierCaseConvention) (p : Diagnostic → Bool)
    (hp : ∀ fid sp n c, p (.identifierNotPreferredCase fid sp n c) = false) :
    (i.validate top conv).filter p = [] := by
  rcases identifier_validate_cases i top conv with h | ⟨c, _, h⟩ <;> rw [h] <;> simp [hp]

/-- Any predicate false on case diagnostics filters qualified-identifier
validation output to nothing. -/
theorem qualified_validate_filter (q : QualifiedIdentifier) (top : Module)
    (p : Diagnostic → Bool)
    (hp : ∀ fid sp n c, p (.identifierNotPreferredCase fid sp n c) = false) :
    (q.validate top).filter p = [] := by
  unfold QualifiedIdentifier.validate
  rw [List.filter_append, identifier_validate_filter _ _ _ p hp,
    identifier_validate_filter _ _ _ p hp]
  rfl

/-- A filter that vanishes on every piece of a flatMap vanishes on the
whole. -/
theorem flatMap_filter_nil {α : Type} (l : List α) (f : α → List Diagnostic)
    (p : Diagnostic → Bool) (h : ∀ a ∈ l, (f a).filter p = []) :
    (l.flatMap f).filter p = [] := by
  rw [List.filter_eq_nil_iff]
  intro d hd
  rcases List.mem_flatMap.mp hd with ⟨a, ha, hda⟩
  exact List.filter_eq_nil_iff.mp (h a ha) d hda

/-- Import validation never emits the module-is-incomplete diagnostic. -/
theorem import_validate_no_incomplete (i : Import) (top : Module) (cache : Store) :
    (i.validate top cache).filter Diagnostic.is_module_is_incomplete = [] := by
  cases i with
  | module v =>
      unfold Import.validate
      rw [List.filter_append,
        identifier_validate_filter _ _ _ _ (fun _ _ _ _ => rfl)]
      cases h : cache.get v.name with
      | none => simp [Diagnostic.is_module_is_incomplete]
      | some target =>
          cases hv : v.version_uri with
          | none => simp
          | some expected =>
              cases ht : target.version_uri with
              | none => simp [ht, Diagnostic.is_module_is_incomplete]
              | some actual =>
                  by_cases hne : actual.value = expected.value <;>
                    simp [ht, hne, Diagnostic.is_module_is_incomplete]
  | member q =>
      unfold Import.validate
      rw [List.filter_append, qualified_validate_filter _ _ _ (fun _ _ _ _ => rfl)]
      cases h : cache.get q.module with
      | none => simp [Diagnostic.is_module_is_incomplete]
      | some target =>
          by_cases hr : (target.resolve_local q.member).isNone = true <;>
            simp [hr, Diagnostic.is_module_is_incomplete]

/-- Constraint validation never emits the module-is-incomplete
diagnostic. -/
theorem constraint_validate_no_incomplete (c : Constraint) (top : Module) (cache : Store) :
    (c.validate top cache).filter Diagnostic.is_module_is_incomplete = [] := by
  unfold Constraint.validate
  cases hb : c.body with
  | informal v =>
      cases hl : v.language with
      | none => simp [hl]
      | some t =>
          by_cases h : ControlledLanguageTag.is_valid t.value <;>
            simp [hl, h, Diagnostic.is_module_is_incomplete]
  | formal w => cases w <;> simp [Diagnostic.is_module_is_incomplete]

/-- Annotation validation never emits the module-is-incomplete
diagnostic. -/
theorem ann_validate_no_incomplete (a : Ann) (top : Module) (cache : Store) (cc : Bool) :
    (a.validate top cache cc).filter Diagnostic.is_module_is_incomplete = [] := by
  cases a with
  | property p => cases cc <;> rfl
  | constraint c =>
      cases cc with
      | false => rfl
      | true => exact constraint_validate_no_incomplete c top cache

/-- Definition validation never emits the module-is-incomplete
diagnostic. -/
theorem definition_validate_no_incomplete (d : Definition) (top : Module) (cache : Store)
    (cc : Bool) :
    (d.validate top cache cc).filter Diagnostic.is_module_is_incomplete = [] := by
  unfold Definition.validate
  rw [List.filter_append]
  have h1 : (match d with
      | .rdf v => v.name.validate top (some .rdfDefinition)
      | _ => d.name.validate top (some .typeDefinition)).filter
        Diagnostic.is_module_is_incomplete = [] := by
    cases d <;> exact identifier_validate_filter _ _ _ _ (fun _ _ _ _ => rfl)
  have h2 : (match d.annotation_body with
      | none => []
      | some b => b.validate top cache cc).filter
        Diagnostic.is_module_is_incomplete = [] := by
    cases hb : d.annotation_body with
    | none => rfl
    | some ab =>
        exact flatMap_filter_nil _ _ _ (fun a _ => ann_validate_no_incomplete a top cache cc)
  rw [h1, h2]
  rfl

/-- Import-statement validation never emits the module-is-incomplete
diagnostic. -/
theorem import_statement_validate_no_incomplete (s : ImportStatement) (top : Module)
    (cache : Store) (cc : Bool) :
    (s.validate top cache cc).filter Diagnostic.is_module_is_incomplete = [] :=
  flatMap_filter_nil _ _ _ (fun i _ => import_validate_no_incomplete i top cache)

/-- Module-body validation never emits the module-is-incomplete
diagnostic; only the module-level pass does. -/
theorem body_validate_no_incomplete (b : ModuleBody) (top : Module) (cache : Store)
    (cc : Bool) :
    (b.validate top cache cc).filter Diagnostic.is_module_is_incomplete = [] := by
  unfold ModuleBody.validate
  rw [List.filter_append, List.filter_append,
    flatMap_filter_nil _ _ _ (fun s _ => import_statement_validate_no_incomplete s top cache cc),
    flatMap_filter_nil _ _ _ (fun a _ => ann_validate_no_incomplete a top cache cc),
    flatMap_filter_nil _ _ _ (fun d _ => definition_validate_no_incomplete d top cache cc)]
  rfl

/-- Claim C3: for every module whose name matches the reserved
library-module naming pattern, `Module::validate` reports zero diagnostics
and `Module::is_incomplete` returns false, for every body, store and
`check_constraints` value. -/
theorem C3_library_modules_exempt (m : Module) (cache : Store) (cc : Bool)
    (h : Identifier.is_library_module_name m.name.value = true) :
    m.validate cache cc = [] ∧ m.is_incomplete cache = false := by
  constructor <;>
    simp [Module.validate, Module.is_incomplete, Module.is_library_module, h]

/-- Witness for C3: the module named `sdml` contains a bodyless entity and
an unresolvable import, yet validates with no diagnostics and is not
incomplete. -/
theorem C3_witness :
    Identifier.is_library_module_name sdmlJunk.name.value = true ∧
      sdmlJunk.validate store1 true = [] ∧ sdmlJunk.is_incomplete store1 = false :=
  ⟨by decide, C3_library_modules_exempt sdmlJunk store1 true (by decide)⟩

/-- Claim C5: `ModuleBody::add_to_definitions` on a non-library body
rejects Rdf and TypeClass definitions with the hard
library-definition-not-allowed error, leaving the definitions sequence
unchanged; every other definition kind, and every definition on a library
body, is appended with an Ok result. -/
theorem C5_library_only_definition_gate (b : ModuleBody) (d : Definition) :
    (b.is_library = false → d.is_library_only = true →
        b.add_to_definitions d =
          (b, some (.libraryDefinitionNotAllowed (b.file_id.getD 0) d.source_span
            d.name.value))) ∧
    (b.is_library = true ∨ d.is_library_only = false →
        b.add_to_definitions d = ({ b with definitions := b.definitions ++ [d] }, none)) := by
  constructor
  · intro h1 h2
    simp [ModuleBody.add_to_definitions, h1, h2]
  · intro h
    rcases h with h | h <;> simp [ModuleBody.add_to_definitions, h]

/-- Witness for C5: on an empty non-library body an RDF definition is
rejected with the hard error and the body stays empty, while an entity
definition is appended with no error. -/
theorem C5_witness :
    ModuleBody.empty.add_to_definitions (.rdf rdfJunkDef) =
      (ModuleBody.empty, some (.libraryDefinitionNotAllowed 0 (some ⟨90, 95⟩) "thing")) ∧
    ModuleBody.empty.add_to_definitions (.entity fooEntity) =
      ({ ModuleBody.empty with definitions := [.entity fooEntity] }, none) :=
  ⟨(C5_library_only_definition_gate ModuleBody.empty (.rdf rdfJunkDef)).1 rfl rfl,
    (C5_library_only_definition_gate ModuleBody.empty (.entity fooEntity)).2 (Or.inr rfl)⟩

/-- Claim C8: `Module::is_incomplete` is a pure structural predicate whose
result does not depend on the module store passed in. -/
theorem C8_is_incomplete_store_independent (m : Module) (cache1 cache2 : Store) :
    m.is_incomplete cache1 = m.is_incomplete cache2 := by
  have h : (fun d => Definition.is_incomplete d m cache1) =
      (fun d => Definition.is_incomplete d m cache2) := by
    funext d
    cases d <;> rfl
  simp only [Module.is_incomplete, ModuleBody.is_incomplete, h]

/-- Claim C9: validation is idempotent and deterministic; against the same
store and flag, the segment a run appends to the reporter log equals the
segment the next run appends, and the module value is never changed. -/
theorem C9_validate_idempotent (m : Module) (cache : Store) (cc : Bool)
    (log : List Diagnostic) :
    (run_validate log m cache cc).drop log.length = m.validate cache cc ∧
    (run_validate (run_validate log m cache cc) m cache cc).drop
        (run_validate log m cache cc).length = m.validate cache cc := by
  constructor <;> simp [run_validate]

/-- Claim C10: `ModuleBody::extend_definitions` is not atomic on error:
with the first disallowed definition at some position in the sequence, its
error is returned, every definition before it has been appended and stays,
and nothing at or after it is added. -/
theorem C10_extend_definitions_not_atomic (b : ModuleBody) (pre post : List Definition)
    (bad : Definition) (hlib : b.is_library = false)
    (hpre : ∀ d ∈ pre, d.is_library_only = false) (hbad : bad.is_library_only = true) :
    b.extend_definitions (pre ++ bad :: post) =
      ({ b with definitions := b.definitions ++ pre },
        some (.libraryDefinitionNotAllowed (b.file_id.getD 0) bad.source_span
          bad.name.value)) := by
  induction pre generalizing b with
  | nil =>
      obtain ⟨sp, fid, lib, imps, anns, defs⟩ := b
      change lib = false at hlib
      subst hlib
      simp [ModuleBody.extend_definitions, ModuleBody.add_to_definitions, hbad]
  | cons d rest ih =>
      have hd : d.is_library_only = false := hpre d (by simp)
      have hrest : ∀ x ∈ rest, x.is_library_only = false := fun x hx => hpre x (by simp [hx])
      have step : b.add_to_definitions d = ({ b with definitions := b.definitions ++ [d] }, none) := by
        simp [ModuleBody.add_to_definitions, hd]
      simp only [List.cons_append, ModuleBody.extend_definitions, step]
      simp only [List.append_eq]
      have ih2 := ih { b with definitions := b.definitions ++ [d] } (by exact hlib) hrest
      rw [ih2]
      simp

/-- Witness for C10: extending an empty non-library body with an entity,
then an RDF definition, then another entity keeps the first entity, returns
the RDF error, and drops the rest. -/
theorem C10_witness :
    ModuleBody.empty.extend_definitions
        [.entity fooEntity, .rdf rdfJunkDef, .entity gapEntity] =
      ({ ModuleBody.empty with definitions := [.entity fooEntity] },
        some (.libraryDefinitionNotAllowed 0 (some ⟨90, 95⟩) "thing")) :=
  C10_extend_definitions_not_atomic ModuleBody.empty [.entity fooEntity]
    [.entity gapEntity] (.rdf rdfJunkDef) rfl (by decide) rfl

/-- Claim C1: for a module import, no version URI on the import means no
version diagnostic for any target state; target present with both URIs
means exactly a module-version-mismatch when and only when the URI strings
differ (string identity); target present without a version URI against an
expected one means exactly a module-version-not-found. -/
theorem C1_module_import_version_logic (top : Module) (cache : Store) (mi : ModuleImport) :
    (mi.version_uri = none →
      (Import.validate (.module mi) top cache).filter Diagnostic.is_version_diag = []) ∧
    (∀ target expected actual,
      cache.get mi.name = some target →
      mi.version_uri = some expected →
      target.version_uri = some actual →
      (Import.validate (.module mi) top cache).filter Diagnostic.is_version_diag =
        (if actual.value = expected.value then []
         else
          [.moduleVersionMismatch top.file_id_or_default expected.span expected.value
            target.file_id_or_default actual.span actual.value])) ∧
    (∀ target expected,
      cache.get mi.name = some target →
      mi.version_uri = some expected →
      target.version_uri = none →
      (Import.validate (.module mi) top cache).filter Diagnostic.is_version_diag =
        [.moduleVersionNotFound top.file_id_or_default mi.span expected.value
          target.file_id_or_default target.span target.name.value]) := by
  refine ⟨?_, ?_, ?_⟩
  · intro h0
    unfold Import.validate
    rw [List.filter_append, identifier_validate_filter _ _ _ _ (fun _ _ _ _ => rfl)]
    cases h : cache.get mi.name with
    | none => simp [Diagnostic.is_version_diag]
    | some target => simp [h0]
  · intro target expected actual h1 h2 h3
    unfold Import.validate
    rw [List.filter_append, identifier_validate_filter _ _ _ _ (fun _ _ _ _ => rfl)]
    by_cases he : actual.value = expected.value <;>
      simp [h1, h2, h3, he, Diagnostic.is_version_diag]
  · intro target expected h1 h2 h3
    unfold Import.validate
    rw [List.filter_append, identifier_validate_filter _ _ _ _ (fun _ _ _ _ => rfl)]
    simp [h1, h2, h3, Diagnostic.is_version_diag]

/-- Witness for C1: importing `m2` expecting `https://x/v1` while the
stored `m2` has `https://x/v2` yields exactly the mismatch diagnostic. -/
theorem C1_witness :
    (Import.validate (.module importOfM2v1) mod1 store1).filter Diagnostic.is_version_diag =
      [.moduleVersionMismatch 1 (some ⟨5, 9⟩) "https://x/v1" 7 (some ⟨40, 44⟩)
        "https://x/v2"] := by
  have h := (C1_module_import_version_logic mod1 store1 importOfM2v1).2.1 mod2
    { span := some ⟨5, 9⟩, value := "https://x/v1" }
    { span := some ⟨40, 44⟩, value := "https://x/v2" } rfl rfl rfl
  rw [if_neg (by decide)] at h
  exact h

/-- Claim C2 (amended): for a member import, an absent module yields
exactly the imported-module-not-found resolution diagnostic; a present
module without the member yields exactly the definition-not-found
resolution diagnostic; a resolving member yields no resolution diagnostic,
though identifier case-convention warnings may still be emitted. -/
theorem C2_member_import_resolution (top : Module) (cache : Store)
    (q : QualifiedIdentifier) :
    (cache.get q.module = none →
      (Import.validate (.member q) top cache).filter Diagnostic.is_resolution_diag =
        [.importedModuleNotFound top.file_id_or_default q.span q.display]) ∧
    (∀ target, cache.get q.module = some target →
      target.resolve_local q.member = none →
      (Import.validate (.member q) top cache).filter Diagnostic.is_resolution_diag =
        [.definitionNotFound top.file_id_or_default q.span q.display]) ∧
    (∀ target def_, cache.get q.module = some target →
      target.resolve_local q.member = some def_ →
      (Import.validate (.member q) top cache).filter Diagnostic.is_resolution_diag = []) := by
  refine ⟨?_, ?_, ?_⟩
  · intro h1
    unfold Import.validate
    rw [List.filter_append, qualified_validate_filter _ _ _ (fun _ _ _ _ => rfl)]
    simp [h1, Diagnostic.is_resolution_diag]
  · intro target h1 h2
    unfold Import.validate
    rw [List.filter_append, qualified_validate_filter _ _ _ (fun _ _ _ _ => rfl)]
    simp [h1, h2, Diagnostic.is_resolution_diag]
  · intro target def_ h1 h2
    unfold Import.validate
    rw [List.filter_append, qualified_validate_filter _ _ _ (fun _ _ _ _ => rfl)]
    simp [h1, h2]

/-- Witness for C2: the member import `m2:Bar` against a store whose `m2`
has no definition `Bar` yields exactly one definition-not-found
diagnostic. -/
theorem C2_witness :
    (Import.validate (.member importOfM2Bar) mod1 store1).filter
        Diagnostic.is_resolution_diag =
      [.definitionNotFound mod1.file_id_or_default importOfM2Bar.span
        importOfM2Bar.display] :=
  (C2_member_import_resolution mod1 store1 importOfM2Bar).2.1 mod2 rfl rfl

/-- Counterexample for C2 as stated: the member import `BadMod:Foo`
resolves (the module is in the store and holds `Foo`), yet a diagnostic is
still reported for the import, a case-convention warning on the module
name. -/
theorem C2_counterexample :
    Store.get store1 importOfBadModFoo.module = some badMod ∧
    badMod.resolve_local importOfBadModFoo.member = some (.entity fooEntity) ∧
    Import.validate (.member importOfBadModFoo) mod1 store1 =
      [.identifierNotPreferredCase 1 (some ⟨30, 36⟩) "BadMod" .module] := by
  refine ⟨rfl, rfl, ?_⟩
  decide

/-- An identifier case diagnostic is attributed to the file of the module
under validation and to the span of the identifier itself. -/
theorem identifier_validate_attrib (i : Identifier) (top : Module)
    (conv : Option IdentifierCaseConvention) :
    ∀ d ∈ i.validate top conv,
      d.primary_file_id = top.file_id_or_default ∧ d.primary_span = i.span := by
  intro d hd
  rcases identifier_validate_cases i top conv with h | ⟨c, _, h⟩ <;> rw [h] at hd
  · cases hd
  · have hds := List.mem_singleton.mp hd
    subst hds
    exact ⟨rfl, rfl⟩

/-- Qualified-identifier diagnostics point at the file of the module under
validation and at the span of one of the two identifier parts. -/
theorem qualified_validate_attrib (q : QualifiedIdentifier) (top : Module) :
    ∀ d ∈ q.validate top,
      d.primary_file_id = top.file_id_or_default ∧
        (d.primary_span = q.module.span ∨ d.primary_span = q.member.span) := by
  intro d hd
  rcases List.mem_append.mp hd with h | h
  · rcases identifier_validate_attrib _ _ _ d h with ⟨h1, h2⟩
    exact ⟨h1, Or.inl h2⟩
  · rcases identifier_validate_attrib _ _ _ d h with ⟨h1, h2⟩
    exact ⟨h1, Or.inr h2⟩

/-- Every diagnostic of a single import is attributed to the file of the
importing module and to a span carried by the imported name itself. -/
theorem import_validate_attribution (i : Import) (top : Module) (cache : Store) :
    ∀ d ∈ i.validate top cache,
      d.primary_file_id = top.file_id_or_default ∧ d.primary_span ∈ i.own_spans := by
  intro d hd
  cases i with
  | module v =>
      unfold Import.validate at hd
      rcases List.mem_append.mp hd with h | h
      · rcases identifier_validate_attrib v.name top _ d h with ⟨h1, h2⟩
        exact ⟨h1, by simp [Import.own_spans, h2]⟩
      · cases hg : cache.get v.name with
        | none =>
            simp only [hg] at h
            have hds := List.mem_singleton.mp h
            subst hds
            exact ⟨rfl, by simp [Import.own_spans, Diagnostic.primary_span]⟩
        | some target =>
            simp only [hg] at h
            cases hv : v.version_uri with
            | none => simp [hv] at h
            | some expected =>
                cases ht : target.version_uri with
                | none =>
                    simp only [hv, ht] at h
                    have hds := List.mem_singleton.mp h
                    subst hds
                    exact ⟨rfl, by simp [Import.own_spans, hv, Diagnostic.primary_span]⟩
                | some actual =>
                    simp only [hv, ht] at h
                    by_cases he : actual.value = expected.value
                    · simp [he] at h
                    · rw [if_pos he] at h
                      have hds := List.mem_singleton.mp h
                      subst hds
                      exact ⟨rfl, by simp [Import.own_spans, hv, Diagnostic.primary_span]⟩
  | member q =>
      unfold Import.validate at hd
      rcases List.mem_append.mp hd with h | h
      · rcases qualified_validate_attrib q top d h with ⟨h1, h2⟩
        refine ⟨h1, ?_⟩
        rcases h2 with h2 | h2 <;> simp [Import.own_spans, h2]
      · cases hg : cache.get q.module with
        | none =>
            simp only [hg] at h
            have hds := List.mem_singleton.mp h
            subst hds
            exact ⟨rfl, by simp [Import.own_spans, Diagnostic.primary_span]⟩
        | some target =>
            simp only [hg] at h
            by_cases hr : (target.resolve_local q.member).isNone
            · rw [if_pos (by simpa using hr)] at h
              have hds := List.mem_singleton.mp h
              subst hds
              exact ⟨rfl, by simp [Import.own_spans, Diagnostic.primary_span]⟩
            · rw [if_neg (by simpa using hr)] at h
              cases h

/-- Claim C7 (amended): every diagnostic of import-statement validation
has the importing module file id as its primary file id and a span of one
of the statement imports as its primary span; the two version diagnostics
additionally embed the imported module file id and span as
related-location arguments. -/
theorem C7_import_diag_attribution (s : ImportStatement) (top : Module) (cache : Store)
    (cc : Bool) :
    ∀ d ∈ s.validate top cache cc,
      d.primary_file_id = top.file_id_or_default ∧
        ∃ i ∈ s.imports, d.primary_span ∈ i.own_spans := by
  intro d hd
  rcases List.mem_flatMap.mp hd with ⟨i, hi, hdi⟩
  rcases import_validate_attribution i top cache d hdi with ⟨h1, h2⟩
  exact ⟨h1, i, hi, h2⟩

/-- Witness for C7 (amended): the mismatch diagnostic produced by the
statement importing `m2` carries file id 1 (the importer) and the span of
the version URI written in the import. -/
theorem C7_witness :
    (Diagnostic.moduleVersionMismatch 1 (some ⟨5, 9⟩) "https://x/v1" 7 (some ⟨40, 44⟩)
        "https://x/v2").primary_file_id = mod1.file_id_or_default ∧
      ∃ i ∈ stmtM2.imports,
        (Diagnostic.moduleVersionMismatch 1 (some ⟨5, 9⟩) "https://x/v1" 7 (some ⟨40, 44⟩)
          "https://x/v2").primary_span ∈ i.own_spans :=
  C7_import_diag_attribution stmtM2 mod1 store1 true _ (by decide)

/-- Counterexample for C7 as stated: the emitted mismatch diagnostic does
reference the imported module, carrying its file id 7 (not the importer
file id 1) and the span of its version header as the related location. -/
theorem C7_counterexample :
    Import.validate (.module importOfM2v1) mod1 store1 =
      [.moduleVersionMismatch 1 (some ⟨5, 9⟩) "https://x/v1" 7 (some ⟨40, 44⟩)
        "https://x/v2"] ∧
    mod2.file_id = some 7 ∧
    mod2.version_uri = some { span := some ⟨40, 44⟩, value := "https://x/v2" } ∧
    mod1.file_id = some 1 := by
  refine ⟨?_, rfl, rfl, rfl⟩
  decide

/-- Claim C4: a non-library module containing a bodyless entity definition
is incomplete, and its validation emits exactly one module-is-incomplete
diagnostic naming the module; a complete non-library module gets none. -/
theorem C4_incomplete_module_diag (m : Module) (cache : Store) (cc : Bool)
    (hlib : Identifier.is_library_module_name m.name.value = false) :
    (∀ e : EntityDef, Definition.entity e ∈ m.body.definitions → e.body = none →
      m.is_incomplete cache = true ∧
        (m.validate cache cc).filter Diagnostic.is_module_is_incomplete =
          [.moduleIsIncomplete m.file_id_or_default m.span m.name.value]) ∧
    (m.is_incomplete cache = false →
      (m.validate cache cc).filter Diagnostic.is_module_is_incomplete = []) := by
  have hinfo : (match m.version_info with
      | some version_info =>
          if version_info.value.isEmpty then
            [Diagnostic.moduleVersionInfoEmpty m.file_id_or_default version_info.span]
          else []
      | none => []).filter Diagnostic.is_module_is_incomplete = [] := by
    cases hvi : m.version_info with
    | none => simp
    | some vi =>
        by_cases h : vi.value.isEmpty <;> simp [h, Diagnostic.is_module_is_incomplete]
  have hfil : ∀ inc : Bool, m.is_incomplete cache = inc →
      (m.validate cache cc).filter Diagnostic.is_module_is_incomplete =
        (if inc then [.moduleIsIncomplete m.file_id_or_default m.span m.name.value]
         else []) := by
    intro inc hinc
    unfold Module.validate
    simp only [Module.is_library_module, hlib, Bool.not_false, if_true]
    rw [List.filter_append, List.filter_append, List.filter_append,
      identifier_validate_filter _ _ _ _ (fun _ _ _ _ => rfl), hinfo,
      body_validate_no_incomplete, hinc]
    cases inc <;> simp [Diagnostic.is_module_is_incomplete]
  constructor
  · intro e he hbody
    have hinc : m.is_incomplete cache = true := by
      simp only [Module.is_incomplete, Module.is_library_module, hlib, Bool.not_false,
        if_true, ModuleBody.is_incomplete, List.any_eq_true]
      exact ⟨.entity e, he, by simp [Definition.is_incomplete, hbody]⟩
    exact ⟨hinc, by simpa using hfil true hinc⟩
  · intro hinc
    simpa using hfil false hinc

/-- A non-constraint annotation validates identically for both flag
values. -/
theorem ann_validate_flag_indep (a : Ann) (top : Module) (cache : Store)
    (h : a.is_constraint = false) (b1 b2 : Bool) :
    a.validate top cache b1 = a.validate top cache b2 := by
  cases a with
  | property p => cases b1 <;> cases b2 <;> rfl
  | constraint c => simp [Ann.is_constraint] at h

/-- Claim C6: the check_constraints flag gates only constraint
annotations: with the flag false every constraint is treated as valid with
no inspection, annotation properties are checked identically for both flag
values, import validation ignores the flag, and on a body containing no
constraint annotation anywhere the validation output is flag-independent
even though the flag is forwarded through every recursive call. -/
theorem C6_check_constraints_gating (top : Module) (cache : Store) :
    (∀ c : Constraint, Ann.is_valid (.constraint c) false top cache = true) ∧
    (∀ (p : AnnProperty) (b1 b2 : Bool),
      Ann.is_valid (.property p) b1 top cache = Ann.is_valid (.property p) b2 top cache) ∧
    (∀ (s : ImportStatement) (b1 b2 : Bool),
      s.validate top cache b1 = s.validate top cache b2) ∧
    (∀ b : ModuleBody, b.has_constraints = false →
      b.validate top cache true = b.validate top cache false) := by
  refine ⟨fun c => rfl, fun p b1 b2 => by cases b1 <;> cases b2 <;> rfl,
    fun s b1 b2 => rfl, fun b hb => ?_⟩
  unfold ModuleBody.has_constraints at hb
  rw [Bool.or_eq_false_iff] at hb
  obtain ⟨hann, hdef⟩ := hb
  rw [List.any_eq_false] at hann
  rw [List.any_eq_false] at hdef
  unfold ModuleBody.validate
  have h1 : b.imports.flatMap (fun imp => ImportStatement.validate imp top cache true) =
      b.imports.flatMap (fun imp => ImportStatement.validate imp top cache false) := rfl
  have h2 : b.annotations.flatMap (fun a => Ann.validate a top cache true) =
      b.annotations.flatMap (fun a => Ann.validate a top cache false) :=
    List.flatMap_congr (fun a ha =>
      ann_validate_flag_indep a top cache (by simpa using hann a ha) true false)
  have h3 : b.definitions.flatMap (fun d => Definition.validate d top cache true) =
      b.definitions.flatMap (fun d => Definition.validate d top cache false) := by
    refine List.flatMap_congr (fun d hd => ?_)
    unfold Definition.validate
    congr 1
    cases hab : d.annotation_body with
    | none => rfl
    | some ab =>
        have hno : ∀ a ∈ ab.annotations, a.is_constraint = false := by
          intro a ha
          have hd2 := hdef d hd
          rw [hab] at hd2
          simp only [List.any_eq_true, not_exists] at hd2
          by_contra hcon
          rw [Bool.not_eq_false] at hcon
          exact absurd ⟨ha, hcon⟩ (hd2 a)
        unfold AnnOnlyBody.validate
        exact List.flatMap_congr (fun a ha =>
          ann_validate_flag_indep a top cache (hno a ha) true false)
  rw [h1, h2, h3]

/-- Witness for C6: a constraint with an ill-formed language tag is assumed
valid under the false flag though it fails under the true flag, and a
constraint-free body validates identically under both flags. -/
theorem C6_witness :
    Ann.is_valid (.constraint badTagConstraint) false mod1 store1 = true ∧
    Ann.is_valid (.constraint badTagConstraint) true mod1 store1 = false ∧
    ModuleBody.empty.validate mod1 store1 true =
      ModuleBody.empty.validate mod1 store1 false :=
  ⟨(C6_check_constraints_gating mod1 store1).1 badTagConstraint, by decide,
    (C6_check_constraints_gating mod1 store1).2.2.2 ModuleBody.empty rfl⟩

/-- Witness for C4: the module `inc` with a bodyless entity is incomplete
and validates to exactly one module-is-incomplete diagnostic naming it,
while the complete module `m1` gets none. -/
theorem C4_witness :
    (modIncomplete.is_incomplete store1 = true ∧
      (modIncomplete.validate store1 true).filter Diagnostic.is_module_is_incomplete =
        [.moduleIsIncomplete 3 (some ⟨0, 88⟩) "inc"]) ∧
    (mod1.validate store1 true).filter Diagnostic.is_module_is_incomplete = [] :=
  ⟨(C4_incomplete_module_diag modIncomplete store1 true (by decide)).1 gapEntity
      (by decide) rfl,
    (C4_incomplete_module_diag mod1 store1 true (by decide)).2 (by decide)⟩

end SDML
